import Mathlib

/-!
Verification of the FTFP telemetry simulation engine (backend/main.py).

The store is modelled as the six logical tables the backend manipulates
(stream clock, failure configuration, telemetry log, seed series,
prediction cache, first-failure markers) together with the in-process
read-cache timestamps.  Each endpoint is translated into a pure state
transition on this store, statement by statement, following the SQL the
backend issues.  `execute_sql` in the source catches every exception and
only logs it, so a failing statement leaves its table unchanged while the
surrounding endpoint continues; the `SqlFailures` flags model which
statements the backend rejects.
-/

namespace FTFP

/-- One sensor reading, as stored in the seed tables and TELEMETRY. -/
structure Reading where
  engineTemp : Int
  transOilPressure : Int
  batteryVoltage : Int
deriving DecidableEq, Repr

/-- A TELEMETRY row; the pair (timestamp, entityId) is the uniqueness key. -/
structure TelemetryRow where
  timestamp : Int
  entityId : String
  reading : Reading
deriving DecidableEq, Repr

/-- A NORMAL_SEED row (per entity, per epoch). -/
structure NormalSeedRow where
  entityId : String
  epoch : Nat
  reading : Reading
deriving DecidableEq, Repr

/-- A row of one of the three failure seed tables, keyed by epoch offset. -/
structure SeedRow where
  epoch : Nat
  reading : Reading
deriving DecidableEq, Repr

/-- A FAILURE_CONFIG row.  `failureNextEpoch` is the failure cursor; it is
nullable in the table, and the code reads it through COALESCE(.., 0). -/
structure FailureConfig where
  entityId : String
  enabled : Bool
  failureType : String
  failureNextEpoch : Option Nat
  effectiveFromEpoch : Nat
deriving DecidableEq, Repr

/-- The STREAM_STATE row for the single stream. -/
structure StreamState where
  startTs : Int
  stepSeconds : Int
  nextEpoch : Nat
deriving DecidableEq, Repr

/-- A PREDICTION_CACHE row (also the shape of the upstream analytic view). -/
structure PredictionRow where
  entityId : String
  predictionTimestamp : Int
  predictedFailureType : String
  predictedHoursToFailure : Int
  lastUpdated : Int
deriving DecidableEq, Repr

/-- A FIRST_FAILURE_MARKERS row. -/
structure MarkerRow where
  entityId : String
  firstFailureTime : Int
  failureType : String
  lastUpdated : Int
deriving DecidableEq, Repr

/-- The whole mutable state visible to the endpoints: the database tables
plus the in-process read-cache timestamps (a cache is invalidated by
setting its timestamp to 0). -/
structure Store where
  streamState : Option StreamState
  failureConfig : List FailureConfig
  telemetry : List TelemetryRow
  normalSeed : List NormalSeedRow
  engineSeed : List SeedRow
  transSeed : List SeedRow
  elecSeed : List SeedRow
  predictionCache : List PredictionRow
  predictiveView : List PredictionRow
  markers : List MarkerRow
  telemetryCacheTs : Int
  predictionsCacheTs : Int
  failuresCacheTs : Int
  markersCacheTs : Int
deriving DecidableEq, Repr

/-- Wall-clock timestamp of an epoch: start_ts + epoch * step_seconds. -/
def tsOf (st : StreamState) (e : Nat) : Int :=
  st.startTs + (e : Int) * st.stepSeconds

/-- Whether a (timestamp, entity) key is already present in TELEMETRY. -/
def keyPresent (tel : List TelemetryRow) (ts : Int) (eid : String) : Bool :=
  tel.any fun r => r.timestamp == ts && r.entityId == eid

/-- Idempotent insert: stage rows, skipping any whose key already exists
(the LEFT JOIN existing ... WHERE existing.entity_id IS NULL discipline). -/
def insertNew (tel : List TelemetryRow) (staged : List TelemetryRow) : List TelemetryRow :=
  tel ++ staged.filter fun r => !(keyPresent tel r.timestamp r.entityId)

/-- Failure-seed table selected by the three typed LEFT JOINs of
write_epoch (and by the seeds union in its cursor UPDATE): an unknown
failure type matches no seed table. -/
def seedFor (s : Store) (ft : String) : List SeedRow :=
  if ft = "ENGINE" then s.engineSeed
  else if ft = "TRANSMISSION" then s.transSeed
  else if ft = "ELECTRICAL" then s.elecSeed
  else []

/-- Failure-seed table selected by fast_forward, whose Python if/elif/else
sends every failure type other than ENGINE and TRANSMISSION to the
ELECTRICAL seed. -/
def seedForFF (s : Store) (ft : String) : List SeedRow :=
  if ft = "ENGINE" then s.engineSeed
  else if ft = "TRANSMISSION" then s.transSeed
  else s.elecSeed

/-- The active_failures CTE of write_epoch: enabled and effective at the
target epoch. -/
def isActive (target : Nat) (c : FailureConfig) : Bool :=
  c.enabled && decide (c.effectiveFromEpoch ≤ target)

/-- The normal_data CTE of write_epoch: the NORMAL_SEED rows of the target
epoch for entities with no active failure. -/
def normalDataAt (s : Store) (st : StreamState) (target : Nat) : List TelemetryRow :=
  s.normalSeed.filterMap fun n =>
    if n.epoch == target
        && !(s.failureConfig.any fun c => isActive target c && c.entityId == n.entityId)
    then some ⟨tsOf st target, n.entityId, n.reading⟩ else none

/-- The failure_data CTE of write_epoch: for each active configuration,
the matching failure seed row at offset cursor+1, if the series still has
one. -/
def failureDataAt (s : Store) (st : StreamState) (target : Nat) : List TelemetryRow :=
  (s.failureConfig.filter (isActive target)).flatMap fun c =>
    (seedFor s c.failureType).filterMap fun r =>
      if r.epoch == c.failureNextEpoch.getD 0 + 1
      then some ⟨tsOf st target, c.entityId, r.reading⟩ else none

/-- The cursor UPDATE of write_epoch, applied to one FAILURE_CONFIG row:
advance by one when enabled, effective, and the seed series still holds
offset cursor+1. -/
def cursorStep (s : Store) (target : Nat) (c : FailureConfig) : FailureConfig :=
  if c.enabled && decide (c.effectiveFromEpoch ≤ target)
      && (seedFor s c.failureType).any (fun r => r.epoch == c.failureNextEpoch.getD 0 + 1)
  then { c with failureNextEpoch := some (c.failureNextEpoch.getD 0 + 1) }
  else c

/-- Which of the writer statements the backend rejects.  execute_sql
swallows the exception, so a rejected statement leaves its table unchanged
and the endpoint continues with the next statement. -/
structure SqlFailures where
  failInsert : Bool
  failCursorUpdate : Bool
  failClockUpdate : Bool
deriving DecidableEq, Repr

def noSqlFailures : SqlFailures := ⟨false, false, false⟩

/-- The write-epoch endpoint.  Reads next_epoch = N, targets N+1, stages
normal and failure rows in one statement with the idempotent key skip,
advances the surviving failure cursors, sets next_epoch to the target and
invalidates the telemetry read cache.  Errors raised by any of the three
UPDATE and INSERT statements are logged and swallowed by execute_sql, so
the endpoint still reports success and still reaches the clock update. -/
def writeEpochF (f : SqlFailures) (s : Store) : Except String Nat × Store :=
  match s.streamState with
  | none => (.error "Stream state not found", s)
  | some st =>
    let target := st.nextEpoch + 1
    let staged := normalDataAt s st target ++ failureDataAt s st target
    let tel1 := if f.failInsert then s.telemetry else insertNew s.telemetry staged
    let cfg1 := if f.failCursorUpdate then s.failureConfig
                else s.failureConfig.map (cursorStep s target)
    let ss1 := if f.failClockUpdate then some st
               else some { st with nextEpoch := target }
    (.ok target,
      { s with telemetry := tel1, failureConfig := cfg1, streamState := ss1,
               telemetryCacheTs := 0 })

/-- write_epoch with every statement succeeding. -/
def writeEpoch (s : Store) : Except String Nat × Store := writeEpochF noSqlFailures s

/-- K sequential invocations of write_epoch. -/
def iterWrite (s : Store) : Nat → Store
  | 0 => s
  | Nat.succ k => iterWrite (writeEpoch s).2 k

/-- next_epoch of the clock row, when one exists. -/
def nextEpochVal (s : Store) : Option Nat := s.streamState.map (·.nextEpoch)

/-- The bulk NORMAL insert of fast_forward: one row per epoch ne+1..ne+k
per NORMAL_SEED entry at that epoch, excluding every enabled failure
entity (regardless of its effective window). -/
def ffNormalIns (s : Store) (st : StreamState) (k : Nat) (failEntities : List String) :
    List TelemetryRow :=
  (List.range k).flatMap fun seq =>
    let e := st.nextEpoch + seq + 1
    s.normalSeed.filterMap fun n =>
      if n.epoch == e && !(failEntities.contains n.entityId)
      then some ⟨tsOf st e, n.entityId, n.reading⟩ else none

/-- The per-entity failure insert of fast_forward: for epoch e = ne+seq+1
the seed offset is cursor + (seq+1 - GREATEST(0, eff - (ne+1))), and only
epochs at or after the effective window receive a row. -/
def ffFailureIns (s : Store) (st : StreamState) (k : Nat) (c : FailureConfig) :
    List TelemetryRow :=
  let ne := st.nextEpoch
  let cur := c.failureNextEpoch.getD 0
  let eff := c.effectiveFromEpoch
  (List.range k).flatMap fun seq =>
    let e := ne + seq + 1
    let offset : Int := (cur : Int) + (((seq : Int) + 1) - max 0 ((eff : Int) - ((ne : Int) + 1)))
    (seedForFF s c.failureType).filterMap fun r =>
      if (r.epoch : Int) == offset && decide (eff ≤ e)
      then some ⟨tsOf st e, c.entityId, r.reading⟩ else none

/-- The cursor advance fast_forward computes in Python for one enabled
configuration: min(k, ne+k-eff+1) when eff is in the future, else k,
guarded by ne+k being at or past eff.  No seed lookup is involved. -/
def ffAdv (ne k : Nat) (c : FailureConfig) : Nat :=
  let eff := c.effectiveFromEpoch
  if eff ≤ ne + k then
    if ne < eff then min k (ne + k - eff + 1) else k
  else 0

/-- The batched cursor UPDATE of fast_forward applied to one row. -/
def ffCursorUpdate (ne k : Nat) (c : FailureConfig) : FailureConfig :=
  if c.enabled && decide (0 < ffAdv ne k c)
  then { c with failureNextEpoch := some (c.failureNextEpoch.getD 0 + ffAdv ne k c) }
  else c

/-- The body of fast_forward once the epoch count k is fixed: the bulk
normal insert (deduplicated against the telemetry read at its start), then
one failure insert per enabled configuration in table order (each
deduplicated against the telemetry current at that statement), then the
batched cursor update computed from the configuration snapshot read at the
start, then next_epoch := ne + k.  No read cache is invalidated. -/
def fastForwardBulk (s : Store) (st : StreamState) (k : Nat) : Store :=
  let cfgs := s.failureConfig.filter (·.enabled)
  let failEntities := cfgs.map (·.entityId)
  let tel1 := insertNew s.telemetry (ffNormalIns s st k failEntities)
  let tel2 := cfgs.foldl (fun tel c => insertNew tel (ffFailureIns s st k c)) tel1
  { s with telemetry := tel2,
           failureConfig := s.failureConfig.map (ffCursorUpdate st.nextEpoch k),
           streamState := some { st with nextEpoch := st.nextEpoch + k } }

/-- The fast-forward endpoint.  epochs_to_write = (hours*3600) // step
with Python floor division and the Python-side `or 5` replacing a zero
step; a non-positive count is rejected before any mutation.  The
background prediction refresh it spawns for hours >= 1 runs on a separate
thread and is not part of this synchronous transition. -/
def fastForward (s : Store) (hours : Int) : Except String Nat × Store :=
  match s.streamState with
  | none => (.error "Stream state not found", s)
  | some st =>
    let pyStep : Int := if st.stepSeconds == 0 then 5 else st.stepSeconds
    let epochsToWrite : Int := Int.fdiv (hours * 3600) pyStep
    if epochsToWrite ≤ 0 then (.error "No epochs to write", s)
    else (.ok epochsToWrite.toNat, fastForwardBulk s st epochsToWrite.toNat)

/-- Python str.upper() on the ASCII failure-type strings: uppercase each
character. -/
def toUpperStr (s : String) : String := ⟨s.data.map Char.toUpper⟩

/-- The activate-failure endpoint: uppercase the requested type without
any validation, read the current epoch (defaulting to 0 when the clock row
is missing), and MERGE the configuration row — an existing row keeps its
cursor, a fresh row starts at cursor 0; both record
effective_from_epoch = current epoch + 1.  Invalidates the failures read
cache. -/
def activateFailure (s : Store) (entityId failureType : String) :
    Except String String × Store :=
  let ft := toUpperStr failureType
  let ne := match s.streamState with
    | some st => st.nextEpoch
    | none => 0
  let eff := ne + 1
  let cfg1 :=
    if s.failureConfig.any (fun c => c.entityId == entityId) then
      s.failureConfig.map fun c =>
        if c.entityId == entityId then
          { c with enabled := true, failureType := ft,
                   failureNextEpoch := some (c.failureNextEpoch.getD 0),
                   effectiveFromEpoch := eff }
        else c
    else
      s.failureConfig ++ [⟨entityId, true, ft, some 0, eff⟩]
  (.ok ft, { s with failureConfig := cfg1, failuresCacheTs := 0 })

/-- The clear-failures endpoint: DELETE FROM FAILURE_CONFIG.  No read
cache is invalidated. -/
def clearFailures (s : Store) : Except String Unit × Store :=
  (.ok (), { s with failureConfig := [] })

/-- The reset endpoint: truncate telemetry, markers, prediction cache and
failure configuration, and re-create the clock row at epoch 0 with the
current wall time and a 5 second step.  No read cache is invalidated. -/
def resetAll (now : Int) (s : Store) : Except String Unit × Store :=
  (.ok (), { s with telemetry := [], markers := [], predictionCache := [],
                    failureConfig := [],
                    streamState := some ⟨now, 5, 0⟩ })

/-- TIME_SLICE(ts, 5, MINUTE, START): floor to the enclosing 5-minute
bucket (timestamps in seconds). -/
def timeSlice5 (t : Int) : Int := 300 * Int.fdiv t 300

/-- The QUALIFY ROW_NUMBER() ... = 1 subquery of the refresh MERGE: one
row per entity of the upstream view, the one with the greatest prediction
timestamp (first occurrence winning ties). -/
def latestPerEntity (view : List PredictionRow) : List PredictionRow :=
  (view.map (·.entityId)).eraseDups.filterMap fun eid =>
    (view.filter (fun r => r.entityId == eid)).foldl
      (fun best r =>
        match best with
        | none => some r
        | some b => if b.predictionTimestamp < r.predictionTimestamp then some r else some b)
      none

/-- The MERGE of the refresh: matched cache rows are overwritten from the
source and stamped, unmatched source rows are inserted and stamped. -/
def mergePredictions (now : Int) (cache src : List PredictionRow) : List PredictionRow :=
  let updated := cache.map fun t =>
    match src.find? (fun r => r.entityId == t.entityId) with
    | some r => { r with lastUpdated := now }
    | none => t
  let inserts := (src.filter fun r => !(cache.any fun t => t.entityId == r.entityId)).map
    fun r => { r with lastUpdated := now }
  updated ++ inserts

/-- The marker INSERT of the refresh: one marker per cached non-NORMAL
prediction whose (entity, type) pair is not already recorded. -/
def markerInserts (now : Int) (cache : List PredictionRow) (markers : List MarkerRow) :
    List MarkerRow :=
  (cache.filter fun p => p.predictedFailureType != "NORMAL"
      && !(markers.any fun m => m.entityId == p.entityId
            && m.failureType == p.predictedFailureType)).map
    fun p => ⟨p.entityId, timeSlice5 p.predictionTimestamp, p.predictedFailureType, now⟩

/-- Program counter of one thread running trigger_refresh_sync.  The
source executes, in order: capture current_time and compare it with
last_refresh_time (cooldown), test refresh_in_progress, enter the
refresh_lock critical section, set refresh_in_progress and
last_refresh_time, run the refresh body, and in the finally block clear
refresh_in_progress before leaving the critical section.  The cooldown
and in-progress tests run before the lock is taken. -/
inductive ThreadPc
  | checkCooldown
  | checkInProgress
  | takeLock
  | setFlags
  | runBody
  | releaseLock
  | finished
  | returnedEarly
deriving DecidableEq, Repr

/-- Shared state of two threads invoking trigger_refresh_sync: the global
refresh_in_progress flag, last_refresh_time, who holds refresh_lock,
how many times the refresh body has executed to completion, each thread
position, and the wall-clock time each thread captured on entry. -/
structure TriggerSys where
  inProgress : Bool
  lastRefreshTime : Int
  lockHeld : Option Bool
  refreshCount : Nat
  pcA : ThreadPc
  pcB : ThreadPc
  nowA : Int
  nowB : Int
deriving DecidableEq, Repr

/-- One atomic step of a thread of trigger_refresh_sync; a thread at
takeLock whose lock is held by the other thread stays blocked. -/
def threadStep (now : Int) (self : Bool) (pc : ThreadPc) (sys : TriggerSys) :
    ThreadPc × TriggerSys :=
  match pc with
  | .checkCooldown =>
      if now - sys.lastRefreshTime < 15 then (.returnedEarly, sys) else (.checkInProgress, sys)
  | .checkInProgress =>
      if sys.inProgress then (.returnedEarly, sys) else (.takeLock, sys)
  | .takeLock =>
      match sys.lockHeld with
      | none => (.setFlags, { sys with lockHeld := some self })
      | some _ => (.takeLock, sys)
  | .setFlags => (.runBody, { sys with inProgress := true, lastRefreshTime := now })
  | .runBody => (.releaseLock, { sys with refreshCount := sys.refreshCount + 1 })
  | .releaseLock => (.finished, { sys with inProgress := false, lockHeld := none })
  | .finished => (.finished, sys)
  | .returnedEarly => (.returnedEarly, sys)

/-- Schedule one step of thread A (false) or thread B (true). -/
def sysStep (who : Bool) (sys : TriggerSys) : TriggerSys :=
  if who then
    let p := threadStep sys.nowB true sys.pcB sys
    { p.2 with pcB := p.1 }
  else
    let p := threadStep sys.nowA false sys.pcA sys
    { p.2 with pcA := p.1 }

/-- Run a schedule, an interleaving of the two threads. -/
def runSched (sched : List Bool) (sys : TriggerSys) : TriggerSys :=
  sched.foldl (fun s w => sysStep w s) sys

/-- Two trigger_refresh_sync invocations, both entering at wall time 100
against a last refresh at time 0, so the cooldown passes for both. -/
def trigInit : TriggerSys :=
  { inProgress := false, lastRefreshTime := 0, lockHeld := none, refreshCount := 0
    pcA := .checkCooldown, pcB := .checkCooldown, nowA := 100, nowB := 100 }

/-- The refresh body of trigger_refresh_sync: merge the latest upstream
predictions into the cache, insert new first-failure markers, then
invalidate the predictions and markers read caches.  The marker DELETE
statement in the source is built from a plain string whose table
placeholder is never interpolated, so that statement always raises and
execute_sql swallows the error: no marker is ever deleted here. -/
def refreshBody (now : Int) (s : Store) : Store :=
  let src := latestPerEntity s.predictiveView
  let cache1 := mergePredictions now s.predictionCache src
  let markers1 := s.markers ++ markerInserts now cache1 s.markers
  { s with predictionCache := cache1, markers := markers1,
           predictionsCacheTs := 0, markersCacheTs := 0 }

/-- The failure cursor of the configuration row of an entity, if any. -/
def cursorOf (s : Store) (eid : String) : Option (Option Nat) :=
  (s.failureConfig.find? (fun c => c.entityId == eid)).map (·.failureNextEpoch)

/-- The uniqueness key of a telemetry row. -/
def rowKey (r : TelemetryRow) : Int × String := (r.timestamp, r.entityId)

/-- Key-uniqueness of the telemetry log: no two rows share
(timestamp, entity). -/
def NoDupKeys (tel : List TelemetryRow) : Prop := (tel.map rowKey).Nodup

instance (tel : List TelemetryRow) : Decidable (NoDupKeys tel) :=
  inferInstanceAs (Decidable (tel.map rowKey).Nodup)

/-- The rows a fixed non-failing entity receives at one epoch: its
NORMAL_SEED entries at that epoch, stamped with the epoch timestamp. -/
def xCand (ns : List NormalSeedRow) (st : StreamState) (x : String) (e : Nat) :
    List TelemetryRow :=
  ns.filterMap fun n =>
    if n.epoch == e && n.entityId == x then some ⟨tsOf st e, x, n.reading⟩ else none

/-- A small concrete store shared by the concrete evaluations: clock at
epoch 0 with a 5 second step, two entities with three normal-seed epochs,
a three-offset engine failure series, empty telemetry, and every read
cache carrying a nonzero timestamp. -/
def baseStore : Store :=
  { streamState := some ⟨0, 5, 0⟩
    failureConfig := []
    telemetry := []
    normalSeed := [⟨"T1", 1, ⟨90, 60, 13⟩⟩, ⟨"T1", 2, ⟨91, 59, 13⟩⟩, ⟨"T1", 3, ⟨92, 58, 13⟩⟩,
                   ⟨"T2", 1, ⟨80, 61, 12⟩⟩, ⟨"T2", 2, ⟨81, 62, 12⟩⟩, ⟨"T2", 3, ⟨82, 63, 12⟩⟩]
    engineSeed := [⟨1, ⟨100, 50, 12⟩⟩, ⟨2, ⟨110, 45, 11⟩⟩, ⟨3, ⟨120, 40, 10⟩⟩]
    transSeed := []
    elecSeed := []
    predictionCache := []
    predictiveView := []
    markers := []
    telemetryCacheTs := 7
    predictionsCacheTs := 7
    failuresCacheTs := 7
    markersCacheTs := 7 }

/-- The store of the cursor-overrun evaluation: an enabled ENGINE failure
for T1 already effective, with a failure series holding a single offset. -/
def shortSeedStore : Store :=
  { baseStore with engineSeed := [⟨1, ⟨100, 50, 12⟩⟩],
                   failureConfig := [⟨"T1", true, "ENGINE", some 0, 1⟩] }

/-- The store of the marker-deletion evaluation: a recorded ENGINE marker
for T1 while the upstream view now predicts T1 as NORMAL. -/
def clearedMarkerStore : Store :=
  { baseStore with markers := [⟨"T1", 0, "ENGINE", 0⟩],
                   predictiveView := [⟨"T1", 1000, "NORMAL", 0, 0⟩] }

/-- A store with an enabled failure row, for the cache-invalidation
evaluation of clear_failures. -/
def enabledCfgStore : Store :=
  { baseStore with failureConfig := [⟨"T2", true, "ENGINE", some 0, 1⟩] }

/-- A schedule in which both threads run their cooldown and in-progress
checks before either sets the flags, then finish one after the other. -/
def raceSched : List Bool :=
  [false, true, true, false, false, false, false, false, true, true, true, true]

/-- A schedule in which thread A runs to completion before thread B
starts. -/
def serialSched : List Bool := [false, false, false, false, false, false, true]

/-- C2: a store error raised by the telemetry INSERT of write_epoch is
swallowed by execute_sql, so the operation does not abort: it still
reports success, writes nothing, and still advances next_epoch past the
unwritten epoch — contrary to the abort-and-leave-the-clock contract. -/
theorem writeEpoch_swallowedInsertError_advancesClock :
    (writeEpochF ⟨true, false, false⟩ baseStore).1 = .ok 1
    ∧ ((writeEpochF ⟨true, false, false⟩ baseStore).2).telemetry = []
    ∧ nextEpochVal (writeEpochF ⟨true, false, false⟩ baseStore).2 = some 1 :=
  ⟨rfl, rfl, rfl⟩

/-- C3 counterexample: invoking write_epoch twice in sequence advances
next_epoch by 2 — one per invocation — not by exactly 1 as claimed. -/
theorem writeEpoch_twice_advancesByTwo :
    nextEpochVal (iterWrite baseStore 2) = some 2
    ∧ ¬ nextEpochVal (iterWrite baseStore 2) = some 1 := by
  exact ⟨rfl, by decide⟩

/-- C5 counterexample: under fast_forward the failure cursor keeps
advancing after the seed series is exhausted.  With a single-offset engine
series and two epochs of fast-forward, exactly one failure row is emitted
for T1 yet the cursor advances by two, past the end of the series. -/
theorem fastForward_cursorOverrunsExhaustedSeed :
    (fastForwardBulk shortSeedStore ⟨0, 5, 0⟩ 2).failureConfig
      = [⟨"T1", true, "ENGINE", some 2, 1⟩]
    ∧ ((fastForwardBulk shortSeedStore ⟨0, 5, 0⟩ 2).telemetry.filter
        (fun r => r.entityId == "T1")).length = 1 := by
  exact ⟨rfl, rfl⟩

/-- C6 counterexample: a schedule in which both trigger_refresh threads
pass the cooldown and in-progress checks (which the source runs before
taking the lock) lets both execute the refresh body to completion: the
refresh runs twice and neither call returns early. -/
theorem triggerRefresh_race_bothExecute :
    (runSched raceSched trigInit).refreshCount = 2
    ∧ (runSched raceSched trigInit).pcA = .finished
    ∧ (runSched raceSched trigInit).pcB = .finished :=
  ⟨rfl, rfl, rfl⟩

/-- C6 amended: the cooldown and in-progress checks run before the lock is
taken, so two near-simultaneous triggers whose checks both precede either
flag-setting each run the refresh (it executes twice, serialized by the
lock); only a trigger whose checks run after the other call has recorded
its refresh returns early, leaving exactly one execution. -/
theorem triggerRefresh_checksOutsideLock :
    (runSched raceSched trigInit).refreshCount = 2
    ∧ (runSched serialSched trigInit).refreshCount = 1
    ∧ (runSched serialSched trigInit).pcA = .finished
    ∧ (runSched serialSched trigInit).pcB = .returnedEarly :=
  ⟨rfl, rfl, rfl, rfl⟩

/-- C7: the refresh marker-deletion statement is built from a plain
(non-interpolated) string, always raises, and execute_sql swallows the
error, so a recorded marker survives a refresh even when the entity is no
longer predicted to have any non-normal failure. -/
theorem refresh_markerSurvivesClearedPrediction :
    (refreshBody 500 clearedMarkerStore).markers = [⟨"T1", 0, "ENGINE", 0⟩]
    ∧ (refreshBody 500 clearedMarkerStore).predictionCache
        = [⟨"T1", 1000, "NORMAL", 0, 500⟩] :=
  ⟨rfl, rfl⟩

/-- C8 counterexample: clear_failures deletes every FAILURE_CONFIG row but
leaves the failures read-cache timestamp untouched, so the next read
within the TTL still serves the stale entry. -/
theorem clearFailures_noCacheInvalidation :
    ((clearFailures enabledCfgStore).2).failureConfig = []
    ∧ ((clearFailures enabledCfgStore).2).failuresCacheTs = 7
    ∧ ¬ ((clearFailures enabledCfgStore).2).failuresCacheTs = 0 := by
  exact ⟨rfl, rfl, by decide⟩

/-- C9 counterexample: activate_failure performs no validation of the
failure type: an unknown type is accepted, stored uppercased, the
configuration table is mutated, and the endpoint reports success instead
of rejecting the request. -/
theorem activateFailure_unknownTypeAccepted :
    (activateFailure baseStore "T1" "BANANA").1 = .ok "BANANA"
    ∧ ((activateFailure baseStore "T1" "BANANA").2).failureConfig
        = [⟨"T1", true, "BANANA", some 0, 1⟩]
    ∧ baseStore.failureConfig = [] := by
  refine ⟨rfl, by decide, rfl⟩

/-- A floor division of a non-positive dividend by a positive divisor is
non-positive. -/
theorem fdiv_nonpos_of_nonpos (a b : Int) (ha : a ≤ 0) (hb : 0 < b) : a.fdiv b ≤ 0 := by
  rw [Int.fdiv_eq_ediv a (le_of_lt hb)]
  apply (Int.ediv_le_ediv hb ha).trans
  simp

/-- C9 amended: a fast_forward request whose epoch count comes out
non-positive is rejected before any mutation, but activate_failure
performs no validation of the failure type: any string — known or not —
is accepted, stored uppercased, and the endpoint reports success while
the configuration table is mutated. -/
theorem fastForward_nonPositiveRejected_activate_unvalidated
    (s : Store) (st : StreamState) (hours : Int) (eid ft : String)
    (hst : s.streamState = some st)
    (hstep : 0 < st.stepSeconds)
    (hh : hours ≤ 0) :
    fastForward s hours = (.error "No epochs to write", s)
    ∧ (activateFailure s eid ft).1 = .ok (toUpperStr ft)
    ∧ ((activateFailure s eid ft).2).failureConfig.any
        (fun c => c.entityId == eid && c.enabled) = true := by
  refine ⟨?_, rfl, ?_⟩
  · have hne : (st.stepSeconds == 0) = false := by
      simp only [beq_eq_false_iff_ne, ne_eq]
      omega
    have hmul : hours * 3600 ≤ 0 := by
      have : (0 : Int) < 3600 := by norm_num
      exact mul_nonpos_of_nonpos_of_nonneg hh (by norm_num)
    have hle : Int.fdiv (hours * 3600) st.stepSeconds ≤ 0 :=
      fdiv_nonpos_of_nonpos _ _ hmul hstep
    simp only [fastForward, hst, hne, Bool.false_eq_true, if_false]
    rw [if_pos hle]
  · simp only [activateFailure]
    by_cases hmem : s.failureConfig.any (fun c => c.entityId == eid) = true
    · simp only [hmem, if_true]
      rw [List.any_eq_true] at hmem ⊢
      obtain ⟨c, hc, hceid⟩ := hmem
      refine ⟨if c.entityId == eid then
          { c with enabled := true, failureType := toUpperStr ft,
                   failureNextEpoch := some (c.failureNextEpoch.getD 0),
                   effectiveFromEpoch :=
                     (match s.streamState with
                      | some st => st.nextEpoch
                      | none => 0) + 1 }
        else c, List.mem_map_of_mem _ hc, ?_⟩
      simp [hceid]
    · simp only [Bool.not_eq_true] at hmem
      simp [hmem]

/-- C9 amended witness at concrete inputs. -/
theorem fastForward_nonPositiveRejected_activate_unvalidated_witness :
    fastForward baseStore (-2) = (.error "No epochs to write", baseStore)
    ∧ (activateFailure baseStore "T9" "BANANA").1 = .ok (toUpperStr "BANANA")
    ∧ ((activateFailure baseStore "T9" "BANANA").2).failureConfig.any
        (fun c => c.entityId == "T9" && c.enabled) = true :=
  fastForward_nonPositiveRejected_activate_unvalidated baseStore ⟨0, 5, 0⟩ (-2) "T9" "BANANA"
    rfl (by decide) (by decide)

/-- C10: when the clock row is missing, activate_failure does not fail
with a not-initialized error: it treats the current epoch as 0, reports
success, and for an entity with no configuration row inserts an enabled
row with failure cursor 0 and effective_from_epoch = 1. -/
theorem activateFailure_missingClock_defaults (s : Store) (eid ft : String)
    (hclock : s.streamState = none)
    (hfresh : s.failureConfig.any (fun c => c.entityId == eid) = false) :
    (activateFailure s eid ft).1 = .ok (toUpperStr ft)
    ∧ (activateFailure s eid ft).2.failureConfig
        = s.failureConfig ++ [⟨eid, true, toUpperStr ft, some 0, 1⟩] := by
  constructor
  · rfl
  · simp [activateFailure, hclock, hfresh]

/-- C10 witness at concrete inputs. -/
theorem activateFailure_missingClock_defaults_witness :
    (activateFailure { baseStore with streamState := none } "T1" "engine").1
        = .ok (toUpperStr "engine")
    ∧ (activateFailure { baseStore with streamState := none } "T1" "engine").2.failureConfig
        = ({ baseStore with streamState := none } : Store).failureConfig
            ++ [⟨"T1", true, toUpperStr "engine", some 0, 1⟩] :=
  activateFailure_missingClock_defaults { baseStore with streamState := none } "T1" "engine"
    rfl (by decide)

/-- C8 amended: write_epoch invalidates the telemetry read cache,
activate_failure the failures cache, and the refresh body the predictions
and markers caches; clear_failures, reset and fast_forward leave every
read-cache timestamp exactly as it was. -/
theorem cacheInvalidation_characterization
    (s : Store) (st : StreamState) (now hours : Int) (eid ft : String)
    (hst : s.streamState = some st) :
    ((writeEpoch s).2).telemetryCacheTs = 0
    ∧ ((activateFailure s eid ft).2).failuresCacheTs = 0
    ∧ (refreshBody now s).predictionsCacheTs = 0
    ∧ (refreshBody now s).markersCacheTs = 0
    ∧ ((clearFailures s).2).failuresCacheTs = s.failuresCacheTs
    ∧ ((clearFailures s).2).telemetryCacheTs = s.telemetryCacheTs
    ∧ ((resetAll now s).2).telemetryCacheTs = s.telemetryCacheTs
    ∧ ((resetAll now s).2).predictionsCacheTs = s.predictionsCacheTs
    ∧ ((resetAll now s).2).failuresCacheTs = s.failuresCacheTs
    ∧ ((resetAll now s).2).markersCacheTs = s.markersCacheTs
    ∧ ((fastForward s hours).2).telemetryCacheTs = s.telemetryCacheTs := by
  refine ⟨?_, rfl, rfl, rfl, rfl, rfl, rfl, rfl, rfl, rfl, ?_⟩
  · simp [writeEpoch, writeEpochF, hst]
  · simp only [fastForward, hst]
    split <;> split <;> rfl

/-- C8 amended witness at concrete inputs. -/
theorem cacheInvalidation_characterization_witness :
    ((writeEpoch baseStore).2).telemetryCacheTs = 0
    ∧ ((activateFailure baseStore "T1" "engine").2).failuresCacheTs = 0
    ∧ (refreshBody 3 baseStore).predictionsCacheTs = 0
    ∧ (refreshBody 3 baseStore).markersCacheTs = 0
    ∧ ((clearFailures baseStore).2).failuresCacheTs = baseStore.failuresCacheTs
    ∧ ((clearFailures baseStore).2).telemetryCacheTs = baseStore.telemetryCacheTs
    ∧ ((resetAll 3 baseStore).2).telemetryCacheTs = baseStore.telemetryCacheTs
    ∧ ((resetAll 3 baseStore).2).predictionsCacheTs = baseStore.predictionsCacheTs
    ∧ ((resetAll 3 baseStore).2).failuresCacheTs = baseStore.failuresCacheTs
    ∧ ((resetAll 3 baseStore).2).markersCacheTs = baseStore.markersCacheTs
    ∧ ((fastForward baseStore 1).2).telemetryCacheTs = baseStore.telemetryCacheTs :=
  cacheInvalidation_characterization baseStore ⟨0, 5, 0⟩ 3 1 "T1" "engine" rfl

/-- find? over an entity-preserving map returns the image of the unique
row of an entity. -/
theorem find?_map_entityPreserving (f : FailureConfig → FailureConfig)
    (hf : ∀ d, (f d).entityId = d.entityId) :
    ∀ (l : List FailureConfig) (c : FailureConfig), c ∈ l →
      (l.map (·.entityId)).Nodup →
      (l.map f).find? (fun d => d.entityId == c.entityId) = some (f c) := by
  intro l
  induction l with
  | nil => intro c hc _; cases hc
  | cons h t ih =>
    intro c hc hnd
    simp only [List.map_cons, List.nodup_cons] at hnd
    rcases List.mem_cons.mp hc with hch | hct
    · subst hch
      rw [List.map_cons, List.find?_cons_of_pos]
      simp [hf]
    · have hne : h.entityId ≠ c.entityId := by
        intro he
        exact hnd.1 (he ▸ List.mem_map_of_mem _ hct)
      rw [List.map_cons, List.find?_cons_of_neg, ih c hct hnd.2]
      simp [hf, hne]

/-- For a configuration already effective at the next epoch, the
fast_forward cursor advance is the full batch size, with no seed lookup. -/
theorem ffAdv_eq_of_effective (ne k : Nat) (c : FailureConfig)
    (heff : c.effectiveFromEpoch ≤ ne + 1) (hk : 1 ≤ k) :
    ffAdv ne k c = k := by
  simp only [ffAdv]
  rw [if_pos (by omega)]
  by_cases h2 : ne < c.effectiveFromEpoch
  · rw [if_pos h2]
    have he : c.effectiveFromEpoch = ne + 1 := by omega
    rw [he]
    have h3 : ne + k - (ne + 1) + 1 = k := by omega
    rw [h3, Nat.min_self]
  · rw [if_neg h2]

/-- C5 amended: for an enabled configuration already effective at the next
epoch, the single-step writer advances the cursor by one exactly when the
failure seed series still holds offset cursor+1 (the offset at which a row
is staged), while fast_forward by k epochs advances the cursor by the full
k regardless of how many seed offsets remain. -/
theorem cursorAdvance_characterization
    (s : Store) (st : StreamState) (c : FailureConfig) (k : Nat)
    (hst : s.streamState = some st)
    (hc : c ∈ s.failureConfig)
    (hnd : (s.failureConfig.map (·.entityId)).Nodup)
    (hen : c.enabled = true)
    (heff : c.effectiveFromEpoch ≤ st.nextEpoch + 1)
    (hk : 1 ≤ k) :
    cursorOf (writeEpoch s).2 c.entityId
      = some (if (seedFor s c.failureType).any
                  (fun r => r.epoch == c.failureNextEpoch.getD 0 + 1)
              then some (c.failureNextEpoch.getD 0 + 1) else c.failureNextEpoch)
    ∧ cursorOf (fastForwardBulk s st k) c.entityId
      = some (some (c.failureNextEpoch.getD 0 + k)) := by
  constructor
  · have hpres : ∀ d, (cursorStep s (st.nextEpoch + 1) d).entityId = d.entityId := by
      intro d; unfold cursorStep; split <;> rfl
    have hfind := find?_map_entityPreserving _ hpres s.failureConfig c hc hnd
    simp only [cursorOf, writeEpoch, writeEpochF, noSqlFailures, hst,
      Bool.false_eq_true, if_false]
    rw [hfind]
    by_cases hseed : (seedFor s c.failureType).any
        (fun r => r.epoch == c.failureNextEpoch.getD 0 + 1) = true
    · simp [cursorStep, hen, heff, hseed]
    · simp only [Bool.not_eq_true] at hseed
      simp [cursorStep, hen, heff, hseed]
  · have hpres : ∀ d, (ffCursorUpdate st.nextEpoch k d).entityId = d.entityId := by
      intro d; unfold ffCursorUpdate; split <;> rfl
    have hfind := find?_map_entityPreserving _ hpres s.failureConfig c hc hnd
    simp only [cursorOf, fastForwardBulk]
    rw [hfind]
    have hadv : ffAdv st.nextEpoch k c = k := ffAdv_eq_of_effective _ _ _ heff hk
    have hkpos : 0 < k := hk
    simp [ffCursorUpdate, hadv, hen, hkpos]

/-- C5 amended witness at concrete inputs. -/
theorem cursorAdvance_characterization_witness :
    cursorOf (writeEpoch shortSeedStore).2 "T1"
      = some (if (seedFor shortSeedStore "ENGINE").any (fun r => r.epoch == 0 + 1)
              then some (0 + 1) else some 0)
    ∧ cursorOf (fastForwardBulk shortSeedStore ⟨0, 5, 0⟩ 2) "T1"
      = some (some (0 + 2)) :=
  cursorAdvance_characterization shortSeedStore ⟨0, 5, 0⟩
    ⟨"T1", true, "ENGINE", some 0, 1⟩ 2 rfl (by decide) (by decide) rfl (by decide) (by decide)

/-- Filtering an idempotent insert: the kept part of the log, followed by
the staged rows that both match the filter and had a fresh key. -/
theorem filter_insertNew (p : TelemetryRow → Bool) (tel staged : List TelemetryRow) :
    (insertNew tel staged).filter p
      = tel.filter p
        ++ ((staged.filter p).filter fun r => !(keyPresent tel r.timestamp r.entityId)) := by
  unfold insertNew
  rw [List.filter_append, List.filter_comm]

/-- A log with no row of an entity has no key of that entity. -/
theorem keyPresent_false_of_filter_nil (tel : List TelemetryRow) (ts : Int) (x : String)
    (h : tel.filter (fun r => r.entityId == x) = []) :
    keyPresent tel ts x = false := by
  rw [List.filter_eq_nil_iff] at h
  unfold keyPresent
  rw [List.any_eq_false]
  intro r hr hrx
  rw [Bool.and_eq_true] at hrx
  exact h r hr hrx.2

/-- Every row staged by a fast_forward failure insert carries the entity
of its configuration row. -/
theorem ffFailureIns_entity (s : Store) (st : StreamState) (k : Nat) (c : FailureConfig) :
    ∀ r ∈ ffFailureIns s st k c, r.entityId = c.entityId := by
  intro r hr
  simp only [ffFailureIns, List.mem_flatMap, List.mem_filterMap] at hr
  obtain ⟨seq, _, rr, _, hif⟩ := hr
  rw [Option.ite_none_right_eq_some] at hif
  cases hif.2
  rfl

/-- Every row staged by the write_epoch normal CTE carries the target
timestamp. -/
theorem normalDataAt_ts (s : Store) (st : StreamState) (target : Nat) :
    ∀ r ∈ normalDataAt s st target, r.timestamp = tsOf st target := by
  intro r hr
  simp only [normalDataAt, List.mem_filterMap] at hr
  obtain ⟨n, _, hif⟩ := hr
  rw [Option.ite_none_right_eq_some] at hif
  cases hif.2
  rfl

/-- Every row staged by the write_epoch failure CTE carries the target
timestamp. -/
theorem failureDataAt_ts (s : Store) (st : StreamState) (target : Nat) :
    ∀ r ∈ failureDataAt s st target, r.timestamp = tsOf st target := by
  intro r hr
  simp only [failureDataAt, List.mem_flatMap, List.mem_filterMap] at hr
  obtain ⟨c, _, rr, _, hif⟩ := hr
  rw [Option.ite_none_right_eq_some] at hif
  cases hif.2
  rfl

/-- A filter for one entity ignores rows of other entities. -/
theorem filter_entity_nil (x : String) (l : List TelemetryRow)
    (h : ∀ r ∈ l, r.entityId ≠ x) :
    l.filter (fun r => r.entityId == x) = [] := by
  rw [List.filter_eq_nil_iff]
  intro r hr
  simpa using h r hr

/-- Folding the per-configuration failure inserts of fast_forward over
configurations of other entities leaves the rows of an entity unchanged. -/
theorem foldl_ffIns_filter (x : String) (s : Store) (st : StreamState) (k : Nat) :
    ∀ (cfgs : List FailureConfig) (tel : List TelemetryRow),
      (∀ c ∈ cfgs, c.entityId ≠ x) →
      ((cfgs.foldl (fun t c => insertNew t (ffFailureIns s st k c)) tel).filter
          (fun r => r.entityId == x))
        = tel.filter (fun r => r.entityId == x) := by
  intro cfgs
  induction cfgs with
  | nil => intro tel _; rfl
  | cons c t ih =>
    intro tel h
    rw [List.foldl_cons, ih _ (fun d hd => h d (List.mem_cons_of_mem _ hd)),
      filter_insertNew]
    have hnil : (ffFailureIns s st k c).filter (fun r => r.entityId == x) = [] :=
      filter_entity_nil x _ (fun r hr =>
        (ffFailureIns_entity s st k c r hr) ▸ h c (List.mem_cons_self _ _))
    rw [hnil]
    simp

/-- If every predicate test fails on the first list, find? over the
concatenation searches the second. -/
theorem find?_append_of_allFalse {α : Type} (p : α → Bool) (l1 l2 : List α)
    (h : ∀ a ∈ l1, p a = false) :
    (l1 ++ l2).find? p = l2.find? p := by
  rw [List.find?_append]
  have : l1.find? p = none := by
    rw [List.find?_eq_none]
    intro a ha
    simp [h a ha]
  rw [this, Option.none_or]

/-- Staging rows from matching seed entries factors through the list of
matching readings. -/
theorem filterMap_seed_factor (seed : List SeedRow) (v ts : Int) (eid : String) :
    (seed.filterMap fun r =>
        if (r.epoch : Int) == v then some (⟨ts, eid, r.reading⟩ : TelemetryRow) else none)
      = ((seed.filterMap fun r =>
          if (r.epoch : Int) == v then some r.reading else none).map
            fun rd => ⟨ts, eid, rd⟩) := by
  induction seed with
  | nil => rfl
  | cons r t ih =>
    simp only [beq_iff_eq] at ih ⊢
    simp only [List.filterMap_cons]
    by_cases h : (r.epoch : Int) = v
    · simp [h, ih]
    · simp [h, ih]

/-- The bulk normal insert of fast_forward stages no row for an entity on
its exclusion list. -/
theorem ffNormalIns_no_entity (s : Store) (st : StreamState) (k : Nat)
    (fe : List String) (x : String) (hx : x ∈ fe) :
    ∀ r ∈ ffNormalIns s st k fe, r.entityId ≠ x := by
  intro r hr
  simp only [ffNormalIns, List.mem_flatMap, List.mem_filterMap] at hr
  obtain ⟨seq, _, n, _, hif⟩ := hr
  rw [Option.ite_none_right_eq_some] at hif
  obtain ⟨hcond, heq⟩ := hif
  cases heq
  intro hEq
  rw [Bool.and_eq_true] at hcond
  have h2 := hcond.2
  rw [show n.entityId = x from hEq] at h2
  simp at h2
  exact h2 hx

/-- For a configuration freshly activated at the current epoch (cursor 0,
effective from the next epoch), the fast_forward failure insert stages,
for each batch epoch in order, the seed rows found at offsets 1..k. -/
theorem ffFailureIns_freshActivation (s : Store) (st : StreamState) (k : Nat)
    (eid ft : String) :
    ffFailureIns s st k ⟨eid, true, ft, some 0, st.nextEpoch + 1⟩
      = (List.range k).flatMap fun seq =>
          ((seedForFF s ft).filterMap fun r =>
            if (r.epoch : Int) == (seq : Int) + 1 then some r.reading else none).map
            fun rd => ⟨tsOf st (st.nextEpoch + seq + 1), eid, rd⟩ := by
  unfold ffFailureIns
  apply List.flatMap_congr
  intro seq _
  rw [← filterMap_seed_factor]
  apply List.filterMap_congr
  intro r _
  have hz : ((st.nextEpoch + 1 : Nat) : Int) - ((st.nextEpoch : Int) + 1) = 0 := by
    push_cast
    ring
  have hd : (decide (st.nextEpoch + 1 ≤ st.nextEpoch + seq + 1)) = true :=
    decide_eq_true (by omega)
  simp only [Option.getD_some, hz, hd, Bool.and_true, max_self, sub_zero,
    Nat.cast_zero, zero_add, max_eq_right le_rfl]

/-- C4: activating an ENGINE failure for a fresh entity T1 while the
current epoch is N, then fast-forwarding exactly 3 epochs, leaves the T1
failure cursor at 3 and writes for T1 exactly the three rows sourced from
the engine failure seed at offsets 1, 2 and 3, in that order. -/
theorem engineFailure_fastForward3_cursorAndRows
    (s : Store) (st : StreamState) (ra rb rc : Reading)
    (hst : s.streamState = some st)
    (hcfg : ∀ c ∈ s.failureConfig, c.entityId ≠ "T1")
    (htel : s.telemetry.filter (fun r => r.entityId == "T1") = [])
    (h1 : (s.engineSeed.filterMap fun r =>
        if (r.epoch : Int) == 1 then some r.reading else none) = [ra])
    (h2 : (s.engineSeed.filterMap fun r =>
        if (r.epoch : Int) == 2 then some r.reading else none) = [rb])
    (h3 : (s.engineSeed.filterMap fun r =>
        if (r.epoch : Int) == 3 then some r.reading else none) = [rc]) :
    cursorOf (fastForwardBulk (activateFailure s "T1" "ENGINE").2 st 3) "T1"
      = some (some 3)
    ∧ (fastForwardBulk (activateFailure s "T1" "ENGINE").2 st 3).telemetry.filter
        (fun r => r.entityId == "T1")
      = [⟨tsOf st (st.nextEpoch + 1), "T1", ra⟩,
         ⟨tsOf st (st.nextEpoch + 2), "T1", rb⟩,
         ⟨tsOf st (st.nextEpoch + 3), "T1", rc⟩] := by
  have hany : s.failureConfig.any (fun c => c.entityId == "T1") = false := by
    rw [List.any_eq_false]
    intro c hcm
    simpa using hcfg c hcm
  have hup : toUpperStr "ENGINE" = "ENGINE" := by decide
  have hs1cfg : (activateFailure s "T1" "ENGINE").2.failureConfig
      = s.failureConfig ++ [⟨"T1", true, "ENGINE", some 0, st.nextEpoch + 1⟩] := by
    simp [activateFailure, hany, hst, hup]
  have hs1tel : (activateFailure s "T1" "ENGINE").2.telemetry = s.telemetry := rfl
  have hseedFF : seedForFF (activateFailure s "T1" "ENGINE").2 "ENGINE" = s.engineSeed := rfl
  constructor
  · have hpres : ∀ d, (ffCursorUpdate st.nextEpoch 3 d).entityId = d.entityId := by
      intro d; unfold ffCursorUpdate; split <;> rfl
    simp only [cursorOf, fastForwardBulk, hs1cfg, List.map_append, List.map_cons,
      List.map_nil]
    rw [find?_append_of_allFalse]
    · have hadv : ffAdv st.nextEpoch 3 ⟨"T1", true, "ENGINE", some 0, st.nextEpoch + 1⟩ = 3 :=
        ffAdv_eq_of_effective _ _ _ (le_refl _) (by norm_num)
      simp [ffCursorUpdate, hadv]
    · intro a ha
      rw [List.mem_map] at ha
      obtain ⟨c, hcm, rfl⟩ := ha
      rw [hpres c]
      simp [hcfg c hcm]
  · have hcfgs : ((activateFailure s "T1" "ENGINE").2.failureConfig.filter (·.enabled))
        = s.failureConfig.filter (·.enabled)
          ++ [⟨"T1", true, "ENGINE", some 0, st.nextEpoch + 1⟩] := by
      rw [hs1cfg, List.filter_append]
      rfl
    simp only [fastForwardBulk, hcfgs]
    rw [List.foldl_append, List.foldl_cons, List.foldl_nil]
    have hmemT1 : "T1" ∈ (s.failureConfig.filter (fun c : FailureConfig => c.enabled)
        ++ [(⟨"T1", true, "ENGINE", some 0, st.nextEpoch + 1⟩ : FailureConfig)]).map
          (fun c : FailureConfig => c.entityId) := by
      rw [List.map_append]
      exact List.mem_append_right _ (by simp)
    have htel1 : (insertNew (activateFailure s "T1" "ENGINE").2.telemetry
        (ffNormalIns (activateFailure s "T1" "ENGINE").2 st 3
          ((s.failureConfig.filter (fun c : FailureConfig => c.enabled)
            ++ [(⟨"T1", true, "ENGINE", some 0, st.nextEpoch + 1⟩ : FailureConfig)]).map
              (fun c : FailureConfig => c.entityId)))).filter
          (fun r => r.entityId == "T1") = [] := by
      rw [filter_insertNew, hs1tel, htel]
      rw [filter_entity_nil _ _ (ffNormalIns_no_entity _ _ _ _ _ hmemT1)]
      rfl
    have htelPre : ((s.failureConfig.filter (fun c : FailureConfig => c.enabled)).foldl
        (fun tel c => insertNew tel (ffFailureIns (activateFailure s "T1" "ENGINE").2 st 3 c))
        (insertNew (activateFailure s "T1" "ENGINE").2.telemetry
          (ffNormalIns (activateFailure s "T1" "ENGINE").2 st 3
            ((s.failureConfig.filter (fun c : FailureConfig => c.enabled)
              ++ [(⟨"T1", true, "ENGINE", some 0, st.nextEpoch + 1⟩ : FailureConfig)]).map
                (fun c : FailureConfig => c.entityId))))).filter
          (fun r => r.entityId == "T1") = [] := by
      rw [foldl_ffIns_filter _ _ _ _ _ _
        (fun c hcm => hcfg c (List.mem_of_mem_filter hcm))]
      exact htel1
    rw [filter_insertNew, htelPre]
    have hinsEnt : ∀ r ∈ ffFailureIns (activateFailure s "T1" "ENGINE").2 st 3
        ⟨"T1", true, "ENGINE", some 0, st.nextEpoch + 1⟩, r.entityId = "T1" :=
      fun r hr => ffFailureIns_entity _ _ _ _ r hr
    rw [List.filter_eq_self.mpr (fun r hr => by
      rw [hinsEnt r (List.mem_of_mem_filter hr),
        keyPresent_false_of_filter_nil _ r.timestamp "T1" htelPre]
      rfl)]
    rw [List.filter_eq_self.mpr (fun r hr => by simp [hinsEnt r hr])]
    rw [List.nil_append, ffFailureIns_freshActivation,
      show List.range 3 = [0, 1, 2] from rfl]
    simp only [List.flatMap_cons, List.flatMap_nil, List.append_nil, hseedFF]
    norm_num
    norm_num at h1 h2 h3
    rw [h1, h2, h3]
    simp

/-- A key is present exactly when it occurs among the row keys. -/
theorem keyPresent_eq_true_iff (tel : List TelemetryRow) (ts : Int) (eid : String) :
    keyPresent tel ts eid = true ↔ (ts, eid) ∈ tel.map rowKey := by
  unfold keyPresent
  rw [List.any_eq_true, List.mem_map]
  constructor
  · rintro ⟨r, hr, hb⟩
    rw [Bool.and_eq_true, beq_iff_eq, beq_iff_eq] at hb
    exact ⟨r, hr, by simp [rowKey, hb.1, hb.2]⟩
  · rintro ⟨r, hr, hk⟩
    refine ⟨r, hr, ?_⟩
    simp only [rowKey, Prod.mk.injEq] at hk
    simp [hk.1, hk.2]

/-- A list of rows with pairwise distinct entities has pairwise distinct
keys. -/
theorem nodup_keys_of_entities (l : List TelemetryRow)
    (hent : (l.map fun r => r.entityId).Nodup) :
    (l.map rowKey).Nodup := by
  have h : l.map (fun r => r.entityId) = (l.map rowKey).map Prod.snd := by
    rw [List.map_map]
    rfl
  rw [h] at hent
  exact List.Nodup.of_map _ hent

/-- The idempotent insert preserves key uniqueness of the log whenever the
staged rows have pairwise distinct keys. -/
theorem insertNew_noDupKeys (tel staged : List TelemetryRow)
    (htel : NoDupKeys tel) (hstaged : (staged.map rowKey).Nodup) :
    NoDupKeys (insertNew tel staged) := by
  unfold insertNew NoDupKeys
  rw [List.map_append, List.nodup_append]
  refine ⟨htel, ?_, ?_⟩
  · exact List.Nodup.sublist (List.Sublist.map _ (List.filter_sublist _)) hstaged
  · intro a ha hb
    rw [List.mem_map] at hb
    obtain ⟨r, hrm, rfl⟩ := hb
    have hfil := List.mem_filter.mp hrm
    have hkp : keyPresent tel r.timestamp r.entityId = true :=
      (keyPresent_eq_true_iff tel r.timestamp r.entityId).mpr ha
    rw [hkp] at hfil
    exact absurd hfil.2 (by simp)

/-- The entities of guarded row staging are the entities of the matching
source rows. -/
theorem filterMap_row_entities {α : Type} (src : List α) (ent : α → String)
    (p : α → Bool) (mk : α → TelemetryRow)
    (hmk : ∀ a, (mk a).entityId = ent a) :
    ((src.filterMap fun a => if p a then some (mk a) else none).map fun r => r.entityId)
      = (src.filter p).map ent := by
  induction src with
  | nil => rfl
  | cons a t ih =>
    by_cases h : p a = true
    · simp [List.filterMap_cons, List.filter_cons, h, ih, hmk]
    · simp only [Bool.not_eq_true] at h
      simp [List.filterMap_cons, List.filter_cons, h, ih]

/-- A seed series with pairwise distinct offsets matches a given offset at
most once. -/
theorem length_filter_epoch_le_one (seed : List SeedRow) (v : Nat)
    (hnd : (seed.map fun r => r.epoch).Nodup) :
    (seed.filter fun r => r.epoch == v).length ≤ 1 := by
  have hsub : ((seed.filter fun r => r.epoch == v).map fun r => r.epoch).Nodup :=
    List.Nodup.sublist (List.Sublist.map _ (List.filter_sublist _)) hnd
  have hall : ∀ e ∈ (seed.filter fun r => r.epoch == v).map (fun r => r.epoch), e = v := by
    intro e he
    rw [List.mem_map] at he
    obtain ⟨r, hr, rfl⟩ := he
    exact beq_iff_eq.mp (List.mem_filter.mp hr).2
  rcases hmatch : seed.filter fun r => r.epoch == v with _ | ⟨a, _ | ⟨b, t⟩⟩
  · rw [hmatch]
    simp
  · rw [hmatch]
    simp
  · exfalso
    rw [hmatch] at hsub hall
    simp only [List.map_cons, List.nodup_cons] at hsub
    have ha := hall a.epoch (by simp)
    have hb := hall b.epoch (by simp)
    exact hsub.1 (by simp [ha, hb])

/-- A constant map of a list of length at most one embeds in the matching
singleton. -/
theorem map_const_sublist_singleton {α : Type} (l : List α) (v : String)
    (hlen : l.length ≤ 1) :
    (l.map fun _ => v).Sublist [v] := by
  match l with
  | [] => simp
  | [a] => simp
  | a :: b :: t => simp at hlen

/-- Pointwise sublists concatenate to a sublist. -/
theorem flatMap_sublist {α β : Type} (l : List α) (g h : α → List β)
    (hgh : ∀ a ∈ l, (g a).Sublist (h a)) :
    (l.flatMap g).Sublist (l.flatMap h) := by
  induction l with
  | nil => simp
  | cons a t ih =>
    rw [List.flatMap_cons, List.flatMap_cons]
    exact List.Sublist.append (hgh a (by simp)) (ih fun b hb => hgh b (by simp [hb]))

/-- Flattening singletons is mapping. -/
theorem flatMap_singleton_eq_map {α β : Type} (l : List α) (f : α → β) :
    (l.flatMap fun a => [f a]) = l.map f := by
  induction l with
  | nil => rfl
  | cons a t ih => simp [List.flatMap_cons, ih]

/-- Every row of the write_epoch failure CTE belongs to an active
configuration. -/
theorem failureDataAt_entity_mem (s : Store) (st : StreamState) (target : Nat) :
    ∀ r ∈ failureDataAt s st target,
      ∃ c ∈ s.failureConfig, isActive target c = true ∧ r.entityId = c.entityId := by
  intro r hr
  simp only [failureDataAt, List.mem_flatMap, List.mem_filterMap] at hr
  obtain ⟨c, hcm, rr, _, hif⟩ := hr
  rw [Option.ite_none_right_eq_some] at hif
  cases hif.2
  exact ⟨c, List.mem_of_mem_filter hcm, (List.mem_filter.mp hcm).2, rfl⟩

/-- The rows staged by one write_epoch invocation carry pairwise distinct
entities, hence pairwise distinct keys. -/
theorem staged_entities_nodup (s : Store) (st : StreamState) (target : Nat)
    (hns : (s.normalSeed.map fun n => (n.entityId, n.epoch)).Nodup)
    (hcfg : (s.failureConfig.map fun c => c.entityId).Nodup)
    (heng : (s.engineSeed.map fun r => r.epoch).Nodup)
    (htr : (s.transSeed.map fun r => r.epoch).Nodup)
    (hel : (s.elecSeed.map fun r => r.epoch).Nodup) :
    ((normalDataAt s st target ++ failureDataAt s st target).map
        fun r => r.entityId).Nodup := by
  have hnormEnt : ((normalDataAt s st target).map fun r => r.entityId)
      = (s.normalSeed.filter fun n =>
          n.epoch == target
            && !(s.failureConfig.any fun c =>
                isActive target c && c.entityId == n.entityId)).map
          (fun n => n.entityId) :=
    filterMap_row_entities _ _ _ _ (fun a => rfl)
  have hseedNodup : ∀ ft, ((seedFor s ft).map fun r => r.epoch).Nodup := by
    intro ft
    unfold seedFor
    split
    · exact heng
    · split
      · exact htr
      · split
        · exact hel
        · simp
  rw [List.map_append, List.nodup_append]
  refine ⟨?_, ?_, ?_⟩
  · rw [hnormEnt]
    apply List.Nodup.map_on
    · intro x hx y hy hxy
      simp only [List.mem_filter, Bool.and_eq_true, beq_iff_eq] at hx hy
      exact List.inj_on_of_nodup_map hns hx.1 hy.1 (by rw [hxy, hx.2.1, hy.2.1])
    · exact List.Nodup.sublist (List.filter_sublist _) (List.Nodup.of_map _ hns)
  · have hsub : ((failureDataAt s st target).map fun r => r.entityId).Sublist
        ((s.failureConfig.filter (isActive target)).map fun c => c.entityId) := by
      unfold failureDataAt
      rw [List.map_flatMap,
        ← flatMap_singleton_eq_map (s.failureConfig.filter (isActive target))
          (fun c => c.entityId)]
      apply flatMap_sublist
      intro c _
      rw [filterMap_row_entities _ (fun _ => c.entityId) _ _ (fun a => rfl)]
      exact map_const_sublist_singleton _ _
        (length_filter_epoch_le_one _ _ (hseedNodup c.failureType))
    exact List.Nodup.sublist hsub
      (List.Nodup.sublist (List.Sublist.map _ (List.filter_sublist _)) hcfg)
  · intro a hna hfa
    rw [hnormEnt, List.mem_map] at hna
    obtain ⟨n, hnm, rfl⟩ := hna
    simp only [List.mem_filter, Bool.and_eq_true] at hnm
    rw [List.mem_map] at hfa
    obtain ⟨r, hrm, hre⟩ := hfa
    obtain ⟨c, hcm, hact, hrc⟩ := failureDataAt_entity_mem s st target r hrm
    have hany : (s.failureConfig.any fun c =>
        isActive target c && c.entityId == n.entityId) = true := by
      rw [List.any_eq_true]
      refine ⟨c, hcm, ?_⟩
      rw [Bool.and_eq_true, hact]
      refine ⟨rfl, ?_⟩
      rw [beq_iff_eq, ← hrc, hre]
    rw [hany] at hnm
    exact absurd hnm.2.2 (by simp)

/-- The store produced by one successful write_epoch invocation, spelled
out. -/
theorem writeEpoch_shape (s : Store) (st : StreamState) (hst : s.streamState = some st) :
    (writeEpoch s).2
      = { s with
            telemetry := insertNew s.telemetry
              (normalDataAt s st (st.nextEpoch + 1) ++ failureDataAt s st (st.nextEpoch + 1)),
            failureConfig := s.failureConfig.map (cursorStep s (st.nextEpoch + 1)),
            streamState := some { st with nextEpoch := st.nextEpoch + 1 },
            telemetryCacheTs := 0 } := by
  simp [writeEpoch, writeEpochF, noSqlFailures, hst]

/-- The cursor update of write_epoch leaves the list of configured
entities unchanged. -/
theorem map_entityId_cursorStep (s : Store) (target : Nat) (l : List FailureConfig) :
    (l.map (cursorStep s target)).map (fun c => c.entityId)
      = l.map fun c => c.entityId := by
  rw [List.map_map]
  apply List.map_congr_left
  intro c _
  show (cursorStep s target c).entityId = c.entityId
  unfold cursorStep
  split <;> rfl

/-- C3 amended: two sequential write_epoch invocations advance next_epoch
by exactly 2 — one per invocation — and duplicate no TelemetryRow: key
uniqueness of the telemetry log is preserved across both invocations. -/
theorem writeEpoch_twice_noDup_advancesByTwo
    (s : Store) (st : StreamState)
    (hst : s.streamState = some st)
    (htel : NoDupKeys s.telemetry)
    (hns : (s.normalSeed.map fun n => (n.entityId, n.epoch)).Nodup)
    (hcfg : (s.failureConfig.map fun c => c.entityId).Nodup)
    (heng : (s.engineSeed.map fun r => r.epoch).Nodup)
    (htr : (s.transSeed.map fun r => r.epoch).Nodup)
    (hel : (s.elecSeed.map fun r => r.epoch).Nodup) :
    NoDupKeys (iterWrite s 2).telemetry
    ∧ nextEpochVal (iterWrite s 2) = some (st.nextEpoch + 2) := by
  have h1 := writeEpoch_shape s st hst
  have hst1 : (writeEpoch s).2.streamState
      = some { st with nextEpoch := st.nextEpoch + 1 } := by rw [h1]
  have htel1 : NoDupKeys (writeEpoch s).2.telemetry := by
    rw [h1]
    exact insertNew_noDupKeys _ _ htel
      (nodup_keys_of_entities _ (staged_entities_nodup s st _ hns hcfg heng htr hel))
  have hns1 : ((writeEpoch s).2.normalSeed.map fun n => (n.entityId, n.epoch)).Nodup := by
    rw [h1]
    exact hns
  have hcfg1 : ((writeEpoch s).2.failureConfig.map fun c => c.entityId).Nodup := by
    rw [h1]
    show ((s.failureConfig.map (cursorStep s (st.nextEpoch + 1))).map
      fun c => c.entityId).Nodup
    rw [map_entityId_cursorStep]
    exact hcfg
  have heng1 : ((writeEpoch s).2.engineSeed.map fun r => r.epoch).Nodup := by
    rw [h1]
    exact heng
  have htr1 : ((writeEpoch s).2.transSeed.map fun r => r.epoch).Nodup := by
    rw [h1]
    exact htr
  have hel1 : ((writeEpoch s).2.elecSeed.map fun r => r.epoch).Nodup := by
    rw [h1]
    exact hel
  have h2 := writeEpoch_shape (writeEpoch s).2 _ hst1
  have hIter : iterWrite s 2 = (writeEpoch (writeEpoch s).2).2 := rfl
  constructor
  · rw [hIter, h2]
    exact insertNew_noDupKeys _ _ htel1
      (nodup_keys_of_entities _
        (staged_entities_nodup (writeEpoch s).2 _ _ hns1 hcfg1 heng1 htr1 hel1))
  · rw [hIter, nextEpochVal, h2]
    rfl

/-- C3 amended witness at concrete inputs. -/
theorem writeEpoch_twice_noDup_advancesByTwo_witness :
    NoDupKeys (iterWrite baseStore 2).telemetry
    ∧ nextEpochVal (iterWrite baseStore 2) = some (0 + 2) :=
  writeEpoch_twice_noDup_advancesByTwo baseStore ⟨0, 5, 0⟩ rfl (by decide) (by decide)
    (by decide) (by decide) (by decide) (by decide)

/-- Epoch timestamps are injective when the step is nonzero. -/
theorem tsOf_inj (st : StreamState) (hstep : st.stepSeconds ≠ 0)
    {e e' : Nat} (h : tsOf st e = tsOf st e') : e = e' := by
  unfold tsOf at h
  have h2 : (e : Int) * st.stepSeconds = (e' : Int) * st.stepSeconds := by omega
  have h3 : (e : Int) = (e' : Int) :=
    mul_right_cancel₀ (by exact_mod_cast hstep) h2
  exact_mod_cast h3

/-- Key presence distributes over log concatenation. -/
theorem keyPresent_append (l1 l2 : List TelemetryRow) (ts : Int) (eid : String) :
    keyPresent (l1 ++ l2) ts eid = (keyPresent l1 ts eid || keyPresent l2 ts eid) :=
  List.any_append

/-- A block of rows with other timestamps contributes no key at a
timestamp. -/
theorem keyPresent_false_of_ts (l : List TelemetryRow) (ts : Int) (eid : String)
    (h : ∀ r ∈ l, r.timestamp ≠ ts) :
    keyPresent l ts eid = false := by
  unfold keyPresent
  rw [List.any_eq_false]
  intro r hr hb
  rw [Bool.and_eq_true, beq_iff_eq] at hb
  exact h r hr hb.1

/-- Rows of the per-entity candidate list carry the epoch timestamp and
the entity. -/
theorem xCand_shape (ns : List NormalSeedRow) (st : StreamState) (x : String) (e : Nat) :
    ∀ r ∈ xCand ns st x e, r.timestamp = tsOf st e ∧ r.entityId = x := by
  intro r hr
  simp only [xCand, List.mem_filterMap] at hr
  obtain ⟨n, _, hif⟩ := hr
  rw [Option.ite_none_right_eq_some] at hif
  cases hif.2
  exact ⟨rfl, rfl⟩

/-- The candidate list only reads the clock origin and step, not the
epoch counter. -/
theorem xCand_set_nextEpoch (ns : List NormalSeedRow) (st : StreamState)
    (x : String) (e m : Nat) :
    xCand ns { st with nextEpoch := m } x e = xCand ns st x e := rfl

/-- Under a disabled (or absent) configuration for an entity, no
configuration row is active for it. -/
theorem noActive_x (s : Store) (x : String) (e : Nat)
    (hx : ∀ c ∈ s.failureConfig, c.entityId = x → c.enabled = false) :
    (s.failureConfig.any fun c => isActive e c && c.entityId == x) = false := by
  rw [List.any_eq_false]
  intro c hcm hcontra
  rw [Bool.and_eq_true, beq_iff_eq] at hcontra
  have hen := hx c hcm hcontra.2
  have h1 := hcontra.1
  unfold isActive at h1
  rw [hen] at h1
  simp at h1

/-- The rows of a non-failing entity in the write_epoch normal CTE are
exactly its candidate rows for the target epoch. -/
theorem normalDataAt_filter_x (s : Store) (st : StreamState) (x : String) (e : Nat)
    (hx : ∀ c ∈ s.failureConfig, c.entityId = x → c.enabled = false) :
    (normalDataAt s st e).filter (fun r => r.entityId == x)
      = xCand s.normalSeed st x e := by
  unfold normalDataAt xCand
  rw [List.filter_filterMap]
  apply List.filterMap_congr
  intro n _
  by_cases hxn : n.entityId = x
  · rw [hxn, noActive_x s x e hx]
    by_cases hne : (n.epoch == e) = true
    · simp [hne, Option.filter]
    · simp only [Bool.not_eq_true] at hne
      simp [hne, Option.filter]
  · have hb : (n.entityId == x) = false := by simp [hxn]
    by_cases hcond : ((n.epoch == e) && !(s.failureConfig.any fun c =>
        isActive e c && c.entityId == n.entityId)) = true
    · simp [hcond, Option.filter, hb, hxn]
    · simp only [Bool.not_eq_true] at hcond
      simp [hcond, Option.filter, hb, hxn]

/-- A non-failing entity receives no row from the write_epoch failure
CTE. -/
theorem failureDataAt_filter_x (s : Store) (st : StreamState) (x : String) (e : Nat)
    (hx : ∀ c ∈ s.failureConfig, c.entityId = x → c.enabled = false) :
    (failureDataAt s st e).filter (fun r => r.entityId == x) = [] := by
  apply filter_entity_nil
  intro r hr hrx
  obtain ⟨c, hcm, hact, hrc⟩ := failureDataAt_entity_mem s st e r hr
  have hen : c.enabled = true := by
    unfold isActive at hact
    rw [Bool.and_eq_true] at hact
    exact hact.1
  rw [hx c hcm (by rw [← hrc, hrx])] at hen
  cases hen

/-- The rows of an excluded non-failing entity in the fast_forward bulk
normal insert are its candidate rows of each batch epoch, in epoch
order. -/
theorem ffNormalIns_filter_x (s : Store) (st : StreamState) (k : Nat)
    (fe : List String) (x : String) (hfe : x ∉ fe) :
    (ffNormalIns s st k fe).filter (fun r => r.entityId == x)
      = (List.range k).flatMap fun i => xCand s.normalSeed st x (st.nextEpoch + i + 1) := by
  unfold ffNormalIns
  rw [List.filter_flatMap]
  apply List.flatMap_congr
  intro i _
  unfold xCand
  rw [List.filter_filterMap]
  apply List.filterMap_congr
  intro n _
  by_cases hxn : n.entityId = x
  · have hcont : fe.contains n.entityId = false := by
      rw [hxn]
      simpa using hfe
    rw [hxn] at hcont ⊢
    rw [hcont]
    by_cases hne : (n.epoch == st.nextEpoch + i + 1) = true
    · simp [hne, Option.filter]
    · simp only [Bool.not_eq_true] at hne
      simp [hne, Option.filter]
  · have hb : (n.entityId == x) = false := by simp [hxn]
    by_cases hcond : ((n.epoch == st.nextEpoch + i + 1) && !(fe.contains n.entityId)) = true
    · rw [if_pos hcond]
      simp [Option.filter, hxn, hb]
    · rw [if_neg hcond]
      simp [hb]

/-- The rows of a non-failing entity after fast_forward: the prior log
rows followed by its fresh-keyed candidates of each batch epoch, in epoch
order. -/
theorem ffBulk_filter_char (s : Store) (st : StreamState) (x : String) (k : Nat)
    (hx : ∀ c ∈ s.failureConfig, c.entityId = x → c.enabled = false) :
    (fastForwardBulk s st k).telemetry.filter (fun r => r.entityId == x)
      = s.telemetry.filter (fun r => r.entityId == x)
        ++ (List.range k).flatMap (fun i =>
            (xCand s.normalSeed st x (st.nextEpoch + i + 1)).filter
              fun r => !(keyPresent s.telemetry r.timestamp r.entityId)) := by
  have hfe : x ∉ (s.failureConfig.filter (fun c : FailureConfig => c.enabled)).map
      (fun c : FailureConfig => c.entityId) := by
    intro hmem
    rw [List.mem_map] at hmem
    obtain ⟨c, hcm, hce⟩ := hmem
    have hen : c.enabled = true := (List.mem_filter.mp hcm).2
    rw [hx c (List.mem_of_mem_filter hcm) hce] at hen
    cases hen
  simp only [fastForwardBulk]
  rw [foldl_ffIns_filter x s st k _ _
    (fun c hcm hce => by
      have hen : c.enabled = true := (List.mem_filter.mp hcm).2
      rw [hx c (List.mem_of_mem_filter hcm) hce] at hen
      cases hen)]
  rw [filter_insertNew, ffNormalIns_filter_x s st k _ x hfe, List.filter_flatMap]

/-- The rows of a non-failing entity after k sequential write_epoch
invocations: the prior log rows followed by its fresh-keyed candidates of
each written epoch; the clock advances by k. -/
theorem iterWrite_filter_char (x : String) :
    ∀ (k : Nat) (s : Store) (st : StreamState),
      s.streamState = some st →
      st.stepSeconds ≠ 0 →
      (∀ c ∈ s.failureConfig, c.entityId = x → c.enabled = false) →
      (iterWrite s k).telemetry.filter (fun r => r.entityId == x)
        = s.telemetry.filter (fun r => r.entityId == x)
          ++ (List.range k).flatMap (fun i =>
              (xCand s.normalSeed st x (st.nextEpoch + i + 1)).filter
                fun r => !(keyPresent s.telemetry r.timestamp r.entityId))
      ∧ (iterWrite s k).streamState = some { st with nextEpoch := st.nextEpoch + k } := by
  intro k
  induction k with
  | zero =>
    intro s st hst _ _
    constructor
    · simp [iterWrite]
    · rw [show iterWrite s 0 = s from rfl, hst]
      rfl
  | succ k ih =>
    intro s st hst hstep hx
    have h1 := writeEpoch_shape s st hst
    have hst1 : (writeEpoch s).2.streamState
        = some { st with nextEpoch := st.nextEpoch + 1 } := by rw [h1]
    have hstep1 : ({ st with nextEpoch := st.nextEpoch + 1 } : StreamState).stepSeconds ≠ 0 :=
      hstep
    have hx1 : ∀ c ∈ (writeEpoch s).2.failureConfig, c.entityId = x → c.enabled = false := by
      intro c hc hce
      have hc' : c ∈ s.failureConfig.map (cursorStep s (st.nextEpoch + 1)) := by
        rw [h1] at hc
        exact hc
      rw [List.mem_map] at hc'
      obtain ⟨c0, hc0, rfl⟩ := hc'
      have hpe : (cursorStep s (st.nextEpoch + 1) c0).entityId = c0.entityId := by
        unfold cursorStep
        split <;> rfl
      have hpen : (cursorStep s (st.nextEpoch + 1) c0).enabled = c0.enabled := by
        unfold cursorStep
        split <;> rfl
      rw [hpen]
      exact hx c0 hc0 (by rw [← hpe, hce])
    obtain ⟨ihTel, ihSt⟩ :=
      ih (writeEpoch s).2 { st with nextEpoch := st.nextEpoch + 1 } hst1 hstep1 hx1
    have hns1 : (writeEpoch s).2.normalSeed = s.normalSeed := by rw [h1]
    have htel1 : (writeEpoch s).2.telemetry.filter (fun r => r.entityId == x)
        = s.telemetry.filter (fun r => r.entityId == x)
          ++ ((xCand s.normalSeed st x (st.nextEpoch + 1)).filter
              fun r => !(keyPresent s.telemetry r.timestamp r.entityId)) := by
      rw [h1]
      show (insertNew s.telemetry _).filter _ = _
      rw [filter_insertNew, List.filter_append, normalDataAt_filter_x s st x _ hx,
        failureDataAt_filter_x s st x _ hx, List.append_nil]
    have hkey : ∀ (i : Nat) (r : TelemetryRow),
        r ∈ xCand s.normalSeed st x (st.nextEpoch + (i + 1) + 1) →
        keyPresent (writeEpoch s).2.telemetry r.timestamp r.entityId
          = keyPresent s.telemetry r.timestamp r.entityId := by
      intro i r hr
      obtain ⟨hts, _⟩ := xCand_shape _ _ _ _ r hr
      rw [h1]
      show keyPresent (insertNew s.telemetry _) _ _ = _
      unfold insertNew
      rw [keyPresent_append]
      have hz : keyPresent ((normalDataAt s st (st.nextEpoch + 1)
          ++ failureDataAt s st (st.nextEpoch + 1)).filter
            fun r => !(keyPresent s.telemetry r.timestamp r.entityId))
          r.timestamp r.entityId = false := by
        apply keyPresent_false_of_ts
        intro r' hr'
        have hr'' := List.mem_of_mem_filter hr'
        have hts' : r'.timestamp = tsOf st (st.nextEpoch + 1) := by
          rcases List.mem_append.mp hr'' with h | h
          · exact normalDataAt_ts _ _ _ _ h
          · exact failureDataAt_ts _ _ _ _ h
        rw [hts', hts]
        intro hEq
        have := tsOf_inj st hstep hEq
        omega
      rw [hz, Bool.or_false]
    have hflat : (List.range k).flatMap (fun i =>
          (xCand (writeEpoch s).2.normalSeed { st with nextEpoch := st.nextEpoch + 1 } x
            (({ st with nextEpoch := st.nextEpoch + 1 } : StreamState).nextEpoch + i + 1)).filter
            fun r => !(keyPresent (writeEpoch s).2.telemetry r.timestamp r.entityId))
        = (List.range k).flatMap (fun i =>
          (xCand s.normalSeed st x (st.nextEpoch + (i + 1) + 1)).filter
            fun r => !(keyPresent s.telemetry r.timestamp r.entityId)) := by
      apply List.flatMap_congr
      intro i _
      have hxeq : xCand (writeEpoch s).2.normalSeed
          { st with nextEpoch := st.nextEpoch + 1 } x
          (({ st with nextEpoch := st.nextEpoch + 1 } : StreamState).nextEpoch + i + 1)
          = xCand s.normalSeed st x (st.nextEpoch + (i + 1) + 1) := by
        rw [hns1, xCand_set_nextEpoch]
        congr 1
        show st.nextEpoch + 1 + i + 1 = st.nextEpoch + (i + 1) + 1
        omega
      rw [hxeq]
      apply List.filter_congr
      intro r hr
      rw [hkey i r hr]
    constructor
    · show (iterWrite (writeEpoch s).2 k).telemetry.filter _ = _
      rw [ihTel, hflat, htel1, List.append_assoc, List.range_succ_eq_map,
        List.flatMap_cons, List.flatMap_map]
    · show (iterWrite (writeEpoch s).2 k).streamState = _
      rw [ihSt]
      have hnum : ({ st with nextEpoch := st.nextEpoch + 1 } : StreamState).nextEpoch + k
          = st.nextEpoch + (k + 1) := by
        show st.nextEpoch + 1 + k = st.nextEpoch + (k + 1)
        omega
      rw [hnum]

/-- C1: for an entity with no enabled failure configuration and any
K >= 1, fast-forwarding K epochs produces exactly the same rows for that
entity, in the same order, as K sequential write_epoch invocations from
the same store, and leaves next_epoch at the same value. -/
theorem fastForward_equiv_writeEpoch
    (s : Store) (st : StreamState) (x : String) (k : Nat)
    (hst : s.streamState = some st)
    (hstep : st.stepSeconds ≠ 0)
    (hx : ∀ c ∈ s.failureConfig, c.entityId = x → c.enabled = false)
    (_hk : 1 ≤ k) :
    (fastForwardBulk s st k).telemetry.filter (fun r => r.entityId == x)
      = (iterWrite s k).telemetry.filter (fun r => r.entityId == x)
    ∧ nextEpochVal (fastForwardBulk s st k) = nextEpochVal (iterWrite s k) := by
  obtain ⟨hTel, hSt⟩ := iterWrite_filter_char x k s st hst hstep hx
  constructor
  · rw [ffBulk_filter_char s st x k hx, hTel]
  · rw [nextEpochVal, nextEpochVal, hSt]
    show ((fastForwardBulk s st k).streamState).map _ = _
    simp [fastForwardBulk]

/-- C1 witness at concrete inputs. -/
theorem fastForward_equiv_writeEpoch_witness :
    (fastForwardBulk baseStore ⟨0, 5, 0⟩ 2).telemetry.filter (fun r => r.entityId == "T2")
      = (iterWrite baseStore 2).telemetry.filter (fun r => r.entityId == "T2")
    ∧ nextEpochVal (fastForwardBulk baseStore ⟨0, 5, 0⟩ 2)
      = nextEpochVal (iterWrite baseStore 2) :=
  fastForward_equiv_writeEpoch baseStore ⟨0, 5, 0⟩ "T2" 2 rfl (by decide) (by decide)
    (by decide)

/-- C4 witness at concrete inputs. -/
theorem engineFailure_fastForward3_cursorAndRows_witness :
    cursorOf (fastForwardBulk (activateFailure baseStore "T1" "ENGINE").2 ⟨0, 5, 0⟩ 3) "T1"
      = some (some 3)
    ∧ (fastForwardBulk (activateFailure baseStore "T1" "ENGINE").2 ⟨0, 5, 0⟩ 3).telemetry.filter
        (fun r => r.entityId == "T1")
      = [⟨tsOf ⟨0, 5, 0⟩ (0 + 1), "T1", ⟨100, 50, 12⟩⟩,
         ⟨tsOf ⟨0, 5, 0⟩ (0 + 2), "T1", ⟨110, 45, 11⟩⟩,
         ⟨tsOf ⟨0, 5, 0⟩ (0 + 3), "T1", ⟨120, 40, 10⟩⟩] :=
  engineFailure_fastForward3_cursorAndRows baseStore ⟨0, 5, 0⟩
    ⟨100, 50, 12⟩ ⟨110, 45, 11⟩ ⟨120, 40, 10⟩ rfl (by decide) rfl
    (by decide) (by decide) (by decide)

end FTFP
